import Mathlib

/-!
Verification of the sGDML ASE calculator core (`sgdml/intf/ase_calc.py`).

The embedding models `SGDMLCalculator.__init__` and
`SGDMLCalculator.calculate` over exact rationals: positions are lists of
3-component coordinate triples, the external `GDMLPredict.predict`
collaborator is an abstract function from a flattened position vector to an
energy/force pair, and the finite-difference stress loop is a left fold over
the axis list `[0, 1, 2]` that also records the sequence of predictor call
inputs. A variant in the `Except` monad models exception propagation of a
failing predictor, and a state-passing wrapper models the `self.results`
field that `calculate` assigns as its last statement.
-/

namespace SGDML

/-- Position of one atom: its x, y and z coordinates. -/
abbrev Pos3 : Type := ℚ × ℚ × ℚ

/-- Fixed finite-difference step used by the stress loop (`1e-4` in the source). -/
def hStep : ℚ := 1 / 10000

/-- Scaling of one position by a conversion factor, as in `atoms.get_positions() * self.Ang_to_R`. -/
def scalePos (a : ℚ) (p : Pos3) : Pos3 := (p.1 * a, p.2.1 * a, p.2.2 * a)

/-- Flattening of a position list into a single coordinate sequence, as in `r.ravel()`. -/
def ravel (r : List Pos3) : List ℚ := r.flatMap fun p => [p.1, p.2.1, p.2.2]

/-- Adding `h` to the coordinate of axis `i` of one position, the body of `r_perturbed[:, i] += 1e-4` for one atom. -/
def addAxis (i : Fin 3) (h : ℚ) (p : Pos3) : Pos3 :=
  if i = 0 then (p.1 + h, p.2.1, p.2.2)
  else if i = 1 then (p.1, p.2.1 + h, p.2.2)
  else (p.1, p.2.1, p.2.2 + h)

/-- Perturbed copy of the position list: every atom's axis-`i` coordinate increased by `hStep`. -/
def perturb (r : List Pos3) (i : Fin 3) : List Pos3 := r.map (addAxis i hStep)

/-- Regrouping of a flat sequence into rows of 3, as in `f.reshape(-1, 3)`. -/
def reshape3 : List ℚ → List Pos3
  | a :: b :: c :: rest => (a, b, c) :: reshape3 rest
  | _ => []

/-- External predictor boundary: flattened model-unit positions to (energy, flat forces). -/
abbrev Predictor : Type := List ℚ → ℚ × List ℚ

/-- Result bundle stored into `self.results`: energy, forces as rows of 3, and a 3x3 stress matrix. -/
@[ext]
structure EvaluationResult where
  energy : ℚ
  forces : List Pos3
  stress : Fin 3 → Fin 3 → ℚ

/-- Writing value `v` into the diagonal entry `(i, i)` of a 3x3 matrix, as in `stress[i, i] = ...`. -/
def setDiag (m : Fin 3 → Fin 3 → ℚ) (i : Fin 3) (v : ℚ) : Fin 3 → Fin 3 → ℚ :=
  fun a b => if a = i ∧ b = i then v else m a b

/-- Calculator state created by `__init__`: the stored conversion factors. -/
structure SGDMLCalculator where
  E_to_eV : ℚ
  Ang_to_R : ℚ
  F_to_eV_Ang : ℚ

/-- Constructor body of `__init__`: stores `E_to_eV`, derives `Ang_to_R = F_to_eV_Ang / E_to_eV`, stores `F_to_eV_Ang`. -/
def SGDMLCalculator.init (E_to_eV F_to_eV_Ang : ℚ) : SGDMLCalculator :=
  ⟨E_to_eV, F_to_eV_Ang / E_to_eV, F_to_eV_Ang⟩

/-- Conversion of caller positions to model units, the line `r = np.array(atoms.get_positions()) * self.Ang_to_R`. -/
def toModel (s : SGDMLCalculator) (positions : List Pos3) : List Pos3 :=
  positions.map (scalePos s.Ang_to_R)

/-- Body of one iteration of the stress loop: build the perturbed copy from the
baseline `r`, call the predictor on its flattened form, convert the energy, and
write the finite-difference quotient into the diagonal; the call input is
recorded in the trace component. -/
def axisStep (s : SGDMLCalculator) (pred : Predictor) (r : List Pos3) (e : ℚ)
    (acc : (Fin 3 → Fin 3 → ℚ) × List (List ℚ)) (i : Fin 3) :
    (Fin 3 → Fin 3 → ℚ) × List (List ℚ) :=
  let q := ravel (perturb r i)
  let ePerturbed := (pred q).1 * s.E_to_eV
  (setDiag acc.1 i ((ePerturbed - e) / (hStep * s.Ang_to_R)), acc.2 ++ [q])

/-- Body of `calculate`, generalized over the order in which the three axes are
processed (the source uses `for i in range(3)`, i.e. order `[0, 1, 2]`), and
instrumented with the list of inputs passed to the predictor. -/
def SGDMLCalculator.calculateOrder (s : SGDMLCalculator) (pred : Predictor)
    (positions : List Pos3) (order : List (Fin 3)) :
    EvaluationResult × List (List ℚ) :=
  let r := toModel s positions
  let q0 := ravel r
  let ef := pred q0
  let e := ef.1 * s.E_to_eV
  let f := ef.2.map (· * s.F_to_eV_Ang)
  let forces := reshape3 f
  let loop := order.foldl (axisStep s pred r e) ((fun _ _ => 0), [q0])
  (⟨e, forces, loop.1⟩, loop.2)

/-- The result bundle of `calculate` on the source's axis order `[0, 1, 2]`. -/
def SGDMLCalculator.calculate (s : SGDMLCalculator) (pred : Predictor)
    (positions : List Pos3) : EvaluationResult :=
  (s.calculateOrder pred positions [0, 1, 2]).1

/-- The sequence of inputs `calculate` passes to the predictor, in call order. -/
def SGDMLCalculator.calls (s : SGDMLCalculator) (pred : Predictor)
    (positions : List Pos3) : List (List ℚ) :=
  (s.calculateOrder pred positions [0, 1, 2]).2

/-- Object state of the calculator: the factor fields together with the `self.results` field. -/
structure CalcState where
  fields : SGDMLCalculator
  results : Option EvaluationResult

/-- The `calculate` method as a transition on the object state: it reads the
factors, computes the bundle and assigns `self.results`; no factor field is written. -/
def calculateMethod (st : CalcState) (pred : Predictor) (positions : List Pos3) : CalcState :=
  { fields := st.fields, results := some (st.fields.calculate pred positions) }

/-- The value written into the diagonal entry for axis `i`, shorthand for the loop body's quotient. -/
def stressVal (s : SGDMLCalculator) (pred : Predictor) (r : List Pos3) (e : ℚ) (i : Fin 3) : ℚ :=
  ((pred (ravel (perturb r i))).1 * s.E_to_eV - e) / (hStep * s.Ang_to_R)

/-- Body of `calculate` against a fallible predictor, in the `Except` monad:
each of the four predictor calls may raise, in which case the raise propagates
and the following statements do not run. The three axis iterations are unrolled
in source order `0, 1, 2`. -/
def SGDMLCalculator.calculateE {ε : Type} (s : SGDMLCalculator)
    (pred : List ℚ → Except ε (ℚ × List ℚ)) (positions : List Pos3) :
    Except ε EvaluationResult :=
  let r := toModel s positions
  (pred (ravel r)).bind fun ef =>
    let e := ef.1 * s.E_to_eV
    let forces := reshape3 (ef.2.map (· * s.F_to_eV_Ang))
    (pred (ravel (perturb r 0))).bind fun p0 =>
      (pred (ravel (perturb r 1))).bind fun p1 =>
        (pred (ravel (perturb r 2))).bind fun p2 =>
          Except.ok
            ⟨e, forces,
              setDiag
                (setDiag
                  (setDiag (fun _ _ => 0) 0 ((p0.1 * s.E_to_eV - e) / (hStep * s.Ang_to_R)))
                  1 ((p1.1 * s.E_to_eV - e) / (hStep * s.Ang_to_R)))
                2 ((p2.1 * s.E_to_eV - e) / (hStep * s.Ang_to_R))⟩

/-- One method call on the fallible object: on success `self.results` is
assigned the fresh bundle (the method body's last statement); on a raise the
field keeps its previous value and the error reaches the caller unchanged. -/
def SGDMLCalculator.calculateRun {ε : Type} (s : SGDMLCalculator)
    (pred : List ℚ → Except ε (ℚ × List ℚ)) (positions : List Pos3)
    (results : Option EvaluationResult) : Except ε Unit × Option EvaluationResult :=
  match s.calculateE pred positions with
  | Except.ok res => (Except.ok (), some res)
  | Except.error err => (Except.error err, results)

/-! ### Characterization of the stress loop -/

theorem axisLoop_snd (s : SGDMLCalculator) (pred : Predictor) (r : List Pos3) (e : ℚ)
    (order : List (Fin 3)) (acc : (Fin 3 → Fin 3 → ℚ) × List (List ℚ)) :
    (order.foldl (axisStep s pred r e) acc).2 =
      acc.2 ++ order.map (fun i => ravel (perturb r i)) := by
  induction order generalizing acc with
  | nil => simp
  | cons a rest ih =>
      simp only [List.foldl_cons, List.map_cons, ih, axisStep]
      simp [List.append_assoc]

theorem axisStep_fst (s : SGDMLCalculator) (pred : Predictor) (r : List Pos3) (e : ℚ)
    (acc : (Fin 3 → Fin 3 → ℚ) × List (List ℚ)) (a i j : Fin 3) :
    (axisStep s pred r e acc a).1 i j =
      if i = a ∧ j = a then stressVal s pred r e a else acc.1 i j := by
  simp [axisStep, setDiag, stressVal]

theorem axisLoop_fst (s : SGDMLCalculator) (pred : Predictor) (r : List Pos3) (e : ℚ)
    (order : List (Fin 3)) (acc : (Fin 3 → Fin 3 → ℚ) × List (List ℚ)) (i j : Fin 3) :
    (order.foldl (axisStep s pred r e) acc).1 i j =
      if i ∈ order ∧ i = j then stressVal s pred r e i else acc.1 i j := by
  induction order generalizing acc with
  | nil => simp
  | cons a rest ih =>
      rw [List.foldl_cons, ih, axisStep_fst]
      simp only [List.mem_cons]
      by_cases hij : i = j
      · subst hij
        by_cases hir : i ∈ rest
        · simp [hir]
        · by_cases hia : i = a
          · subst hia; simp [hir]
          · simp [hir, hia]
      · have hna : ¬(i = a ∧ j = a) := fun h => hij (h.1.trans h.2.symm)
        simp [hij, hna]

/-! ### Closed forms for the components of the result bundle -/

theorem calculate_energy (s : SGDMLCalculator) (pred : Predictor) (positions : List Pos3) :
    (s.calculate pred positions).energy =
      (pred (ravel (toModel s positions))).1 * s.E_to_eV := rfl

theorem calculate_forces (s : SGDMLCalculator) (pred : Predictor) (positions : List Pos3) :
    (s.calculate pred positions).forces =
      reshape3 ((pred (ravel (toModel s positions))).2.map (· * s.F_to_eV_Ang)) := rfl

theorem calculateOrder_stress (s : SGDMLCalculator) (pred : Predictor) (positions : List Pos3)
    (order : List (Fin 3)) (i j : Fin 3) :
    ((s.calculateOrder pred positions order).1).stress i j =
      if i ∈ order ∧ i = j then
        stressVal s pred (toModel s positions)
          ((pred (ravel (toModel s positions))).1 * s.E_to_eV) i
      else 0 := by
  simp only [SGDMLCalculator.calculateOrder]
  rw [axisLoop_fst]

theorem calculateOrder_trace (s : SGDMLCalculator) (pred : Predictor) (positions : List Pos3)
    (order : List (Fin 3)) :
    (s.calculateOrder pred positions order).2 =
      ravel (toModel s positions)
        :: order.map (fun i => ravel (perturb (toModel s positions) i)) := by
  simp only [SGDMLCalculator.calculateOrder]
  rw [axisLoop_snd]
  simp

theorem calculate_stress (s : SGDMLCalculator) (pred : Predictor) (positions : List Pos3)
    (i j : Fin 3) :
    (s.calculate pred positions).stress i j =
      if i = j then
        stressVal s pred (toModel s positions)
          ((pred (ravel (toModel s positions))).1 * s.E_to_eV) i
      else 0 := by
  have hmem : i ∈ ([0, 1, 2] : List (Fin 3)) := by fin_cases i <;> simp
  rw [SGDMLCalculator.calculate, calculateOrder_stress]
  simp [hmem]

theorem scalePos_one (p : Pos3) : scalePos 1 p = p := by
  simp [scalePos]

theorem toModel_of_one (s : SGDMLCalculator) (h : s.Ang_to_R = 1) (positions : List Pos3) :
    toModel s positions = positions := by
  rw [toModel, h]
  have hid : scalePos 1 = id := funext fun p => scalePos_one p
  rw [hid, List.map_id]

theorem init_one_one_eq : SGDMLCalculator.init 1 1 = ⟨1, 1, 1⟩ := by
  simp [SGDMLCalculator.init]

theorem map_mul_one (l : List ℚ) : l.map (· * 1) = l := by
  have hid : (fun x : ℚ => x * 1) = id := funext fun x => mul_one x
  rw [hid, List.map_id]

theorem reshape3_length (n : ℕ) (l : List ℚ) (h : l.length = 3 * n) :
    (reshape3 l).length = n := by
  induction n generalizing l with
  | zero =>
      match l with
      | [] => rfl
      | a :: rest => simp at h
  | succ m ih =>
      match l with
      | a :: b :: c :: rest =>
          have hr : rest.length = 3 * m := by
            simp only [List.length_cons] at h
            omega
          simp [reshape3, ih rest hr]
      | [] => simp at h
      | [a] => simp at h; omega
      | [a, b] => simp at h; omega

/-! ### Claims -/

/-- Claim C1: on every evaluation, the stress diagonal entry for axis `i` is
the finite-difference quotient `(e_i_framework - e0_framework) / (h * length_factor)`
with step `h = 1e-4`, where `e_i_framework` is the energy-factor-converted
prediction on the positions perturbed along axis `i` and `e0_framework` the
converted baseline energy; every off-diagonal entry is zero. -/
theorem C1_stress_finite_difference (s : SGDMLCalculator) (pred : Predictor)
    (positions : List Pos3) (i j : Fin 3) :
    hStep = 1 / 10000 ∧
    (s.calculate pred positions).stress i j =
      if i = j then
        ((pred (ravel (perturb (toModel s positions) i))).1 * s.E_to_eV
            - (pred (ravel (toModel s positions))).1 * s.E_to_eV)
          / (hStep * s.Ang_to_R)
      else 0 := by
  refine ⟨rfl, ?_⟩
  rw [calculate_stress]
  by_cases hij : i = j <;> simp [hij, stressVal]

/-- Claim C2: with all three conversion factors equal to one (energy factor 1,
force factor 1, hence derived length factor 1), the energy and forces of the
result bundle are exactly the predictor's raw baseline outputs on the
unconverted flattened positions, the forces merely regrouped into rows of 3. -/
theorem C2_unit_identity (pred : Predictor) (positions : List Pos3) :
    (SGDMLCalculator.init 1 1).Ang_to_R = 1 ∧
    ((SGDMLCalculator.init 1 1).calculate pred positions).energy
      = (pred (ravel positions)).1 ∧
    ((SGDMLCalculator.init 1 1).calculate pred positions).forces
      = reshape3 (pred (ravel positions)).2 := by
  have hA : (SGDMLCalculator.init 1 1).Ang_to_R = 1 := by
    rw [init_one_one_eq]
  refine ⟨hA, ?_, ?_⟩
  · rw [calculate_energy, toModel_of_one _ hA, init_one_one_eq]
    exact mul_one _
  · rw [calculate_forces, toModel_of_one _ hA, init_one_one_eq]
    simp only [map_mul_one]

/-- Claim C6: construction always derives the length factor as
force-factor / energy-factor, and `calculate` writes no factor field, so the
relation `Ang_to_R = F_to_eV_Ang / E_to_eV` holds before and after every call. -/
theorem C6_length_factor_derived (E F : ℚ) (pred : Predictor) (positions : List Pos3)
    (res : Option EvaluationResult) :
    (SGDMLCalculator.init E F).Ang_to_R = F / E ∧
    (calculateMethod ⟨SGDMLCalculator.init E F, res⟩ pred positions).fields
      = SGDMLCalculator.init E F ∧
    (calculateMethod ⟨SGDMLCalculator.init E F, res⟩ pred positions).fields.Ang_to_R
      = (calculateMethod ⟨SGDMLCalculator.init E F, res⟩ pred positions).fields.F_to_eV_Ang
        / (calculateMethod ⟨SGDMLCalculator.init E F, res⟩ pred positions).fields.E_to_eV :=
  ⟨rfl, rfl, rfl⟩

/-- Claim C9: for a single atom at the origin, unit conversion factors, and a
stub predictor returning energy 0 and forces [0,0,0] on every input, the
result bundle is energy 0, forces [(0,0,0)], and the zero stress matrix. -/
theorem C9_zero_scenario :
    ((SGDMLCalculator.init 1 1).calculate (fun _ => (0, [0, 0, 0])) [(0, 0, 0)]).energy = 0 ∧
    ((SGDMLCalculator.init 1 1).calculate (fun _ => (0, [0, 0, 0])) [(0, 0, 0)]).forces
      = [(0, 0, 0)] ∧
    ∀ i j : Fin 3,
      ((SGDMLCalculator.init 1 1).calculate (fun _ => (0, [0, 0, 0])) [(0, 0, 0)]).stress i j
        = 0 := by
  refine ⟨?_, ?_, ?_⟩
  · rw [calculate_energy]
    simp [init_one_one_eq]
  · rw [calculate_forces]
    simp [init_one_one_eq, reshape3]
  · intro i j
    rw [calculate_stress]
    by_cases hij : i = j <;> simp [hij, stressVal, init_one_one_eq]

/-- Claim C3: for N atoms the forces output has exactly N rows of 3 components
(given the adapter contract that the predictor returns 3N force components),
and the stress output is a 3x3 matrix whose six off-diagonal entries are zero,
whatever the predictor's returned values. -/
theorem C3_shape_invariant (s : SGDMLCalculator) (pred : Predictor) (positions : List Pos3)
    (hlen : (pred (ravel (toModel s positions))).2.length = 3 * positions.length) :
    ((s.calculate pred positions).forces).length = positions.length ∧
    ∀ i j : Fin 3, i ≠ j → (s.calculate pred positions).stress i j = 0 := by
  constructor
  · rw [calculate_forces]
    apply reshape3_length
    rw [List.length_map]
    exact hlen
  · intro i j hij
    rw [calculate_stress]
    simp [hij]

theorem C3_shape_invariant_witness :
    ((fun q => ((0 : ℚ), q))
        (ravel (toModel (SGDMLCalculator.init 1 1) [(0, 0, 0), (1, 2, 3)]))).2.length
      = 3 * ([(0, 0, 0), (1, 2, 3)] : List Pos3).length ∧
    (((SGDMLCalculator.init 1 1).calculate (fun q => ((0 : ℚ), q))
        [(0, 0, 0), (1, 2, 3)]).forces).length
      = ([(0, 0, 0), (1, 2, 3)] : List Pos3).length ∧
    ((SGDMLCalculator.init 1 1).calculate (fun q => ((0 : ℚ), q))
        [(0, 0, 0), (1, 2, 3)]).stress 0 1 = 0 := by
  have hlen : ((fun q => ((0 : ℚ), q))
      (ravel (toModel (SGDMLCalculator.init 1 1) [(0, 0, 0), (1, 2, 3)]))).2.length
      = 3 * ([(0, 0, 0), (1, 2, 3)] : List Pos3).length := by
    simp [toModel, ravel, scalePos]
  exact ⟨hlen, (C3_shape_invariant _ _ _ hlen).1,
    (C3_shape_invariant _ _ _ hlen).2 0 1 (by decide)⟩

/-- Claim C4: `calculate` reads no mutable state that it also writes, so with a
deterministic predictor a second call on the same positions produces the same
outcome and the same `self.results` content as the first. -/
theorem C4_two_run_determinism {ε : Type} (s : SGDMLCalculator)
    (pred : List ℚ → Except ε (ℚ × List ℚ)) (positions : List Pos3)
    (prior : Option EvaluationResult) :
    s.calculateRun pred positions (s.calculateRun pred positions prior).2
      = s.calculateRun pred positions prior := by
  cases h : s.calculateE pred positions with
  | ok res => simp [SGDMLCalculator.calculateRun, h]
  | error err => simp [SGDMLCalculator.calculateRun, h]

/-- Claim C5: every perturbed call is built from the unperturbed baseline
positions and compared against the same baseline energy, so processing the
three axes in any permuted order yields the same stress matrix; the recorded
call inputs show each perturbation applied to the baseline. -/
theorem C5_axis_order_independence (s : SGDMLCalculator) (pred : Predictor)
    (positions : List Pos3) (order : List (Fin 3)) (hperm : order.Perm [0, 1, 2]) :
    (∀ i j : Fin 3,
      ((s.calculateOrder pred positions order).1).stress i j
        = (s.calculate pred positions).stress i j) ∧
    (s.calculateOrder pred positions order).2
      = ravel (toModel s positions)
          :: order.map (fun i => ravel (perturb (toModel s positions) i)) := by
  refine ⟨?_, calculateOrder_trace s pred positions order⟩
  intro i j
  rw [calculateOrder_stress, calculate_stress]
  have hmem : i ∈ order := hperm.mem_iff.2 (by fin_cases i <;> simp)
  by_cases hij : i = j
  · subst hij
    simp [hmem]
  · simp [hij]

theorem C5_axis_order_independence_witness :
    (((SGDMLCalculator.init 1 1).calculateOrder (fun _ => ((0 : ℚ), ([] : List ℚ)))
        [(0, 0, 0)] [2, 0, 1]).1).stress 0 0
      = ((SGDMLCalculator.init 1 1).calculate (fun _ => ((0 : ℚ), ([] : List ℚ)))
          [(0, 0, 0)]).stress 0 0 ∧
    ((SGDMLCalculator.init 1 1).calculateOrder (fun _ => ((0 : ℚ), ([] : List ℚ)))
        [(0, 0, 0)] [2, 0, 1]).2
      = ravel (toModel (SGDMLCalculator.init 1 1) [(0, 0, 0)])
          :: ([2, 0, 1] : List (Fin 3)).map
              (fun i => ravel (perturb (toModel (SGDMLCalculator.init 1 1) [(0, 0, 0)]) i)) :=
  ⟨(C5_axis_order_independence _ _ _ [2, 0, 1] (by decide)).1 0 0,
    (C5_axis_order_independence _ _ _ [2, 0, 1] (by decide)).2⟩

/-- Claim C7: every evaluation issues exactly four predictor invocations, in
the fixed order baseline, axis x, axis y, axis z; and the force component
returned by the three perturbed calls is never read, so two predictors that
agree on all energies and on the baseline response give the same bundle. -/
theorem C7_four_sequential_calls (s : SGDMLCalculator) (pred : Predictor)
    (positions : List Pos3) :
    s.calls pred positions =
      [ravel (toModel s positions),
       ravel (perturb (toModel s positions) 0),
       ravel (perturb (toModel s positions) 1),
       ravel (perturb (toModel s positions) 2)] ∧
    (s.calls pred positions).length = 4 ∧
    ∀ pred2 : Predictor,
      (∀ q, (pred2 q).1 = (pred q).1) →
      pred2 (ravel (toModel s positions)) = pred (ravel (toModel s positions)) →
      s.calculate pred2 positions = s.calculate pred positions := by
  have htrace : s.calls pred positions =
      ravel (toModel s positions)
        :: ([0, 1, 2] : List (Fin 3)).map
            (fun i => ravel (perturb (toModel s positions) i)) :=
    calculateOrder_trace s pred positions [0, 1, 2]
  refine ⟨by rw [htrace]; rfl, by rw [htrace]; rfl, ?_⟩
  intro pred2 h1 h0
  have he : (s.calculate pred2 positions).energy = (s.calculate pred positions).energy := by
    rw [calculate_energy, calculate_energy, h0]
  have hf : (s.calculate pred2 positions).forces = (s.calculate pred positions).forces := by
    rw [calculate_forces, calculate_forces, h0]
  have hs : ∀ i j : Fin 3,
      (s.calculate pred2 positions).stress i j = (s.calculate pred positions).stress i j := by
    intro i j
    rw [calculate_stress, calculate_stress]
    by_cases hij : i = j
    · simp only [hij, if_pos rfl, stressVal, h1]
    · simp [hij]
  exact EvaluationResult.ext he hf (funext fun i => funext fun j => hs i j)

theorem C7_four_sequential_calls_witness :
    (SGDMLCalculator.init 1 1).calculate
        (fun q => ((0 : ℚ),
          if q = ravel (toModel (SGDMLCalculator.init 1 1) [(0, 0, 0)]) then [(9 : ℚ)]
          else [(8 : ℚ)]))
        [(0, 0, 0)]
      = (SGDMLCalculator.init 1 1).calculate
          (fun q => ((0 : ℚ),
            if q = ravel (toModel (SGDMLCalculator.init 1 1) [(0, 0, 0)]) then [(9 : ℚ)]
            else [(7 : ℚ)]))
          [(0, 0, 0)] :=
  (C7_four_sequential_calls (SGDMLCalculator.init 1 1)
      (fun q => ((0 : ℚ),
        if q = ravel (toModel (SGDMLCalculator.init 1 1) [(0, 0, 0)]) then [(9 : ℚ)]
        else [(7 : ℚ)]))
      [(0, 0, 0)]).2.2
    (fun q => ((0 : ℚ),
      if q = ravel (toModel (SGDMLCalculator.init 1 1) [(0, 0, 0)]) then [(9 : ℚ)]
      else [(8 : ℚ)]))
    (fun q => rfl)
    (by simp)

/-- Claim C10: when the energy factor equals the force factor at construction,
the derived length factor is exactly 1, so the positions reach the predictor
numerically unchanged apart from flattening (the baseline call input is the
flattened caller positions themselves). -/
theorem C10_equal_factors_identity (E : ℚ) (hE : E ≠ 0) (pred : Predictor)
    (positions : List Pos3) :
    (SGDMLCalculator.init E E).Ang_to_R = 1 ∧
    toModel (SGDMLCalculator.init E E) positions = positions ∧
    ((SGDMLCalculator.init E E).calls pred positions).head? = some (ravel positions) := by
  have hA : (SGDMLCalculator.init E E).Ang_to_R = 1 := div_self hE
  refine ⟨hA, toModel_of_one _ hA positions, ?_⟩
  rw [SGDMLCalculator.calls, calculateOrder_trace, toModel_of_one _ hA]
  rfl

theorem C10_equal_factors_identity_witness :
    (SGDMLCalculator.init 2 2).Ang_to_R = 1 ∧
    toModel (SGDMLCalculator.init 2 2) [((1 : ℚ), (2 : ℚ), (3 : ℚ))]
      = [((1 : ℚ), (2 : ℚ), (3 : ℚ))] ∧
    ((SGDMLCalculator.init 2 2).calls (fun q => ((0 : ℚ), q))
        [((1 : ℚ), (2 : ℚ), (3 : ℚ))]).head?
      = some (ravel [((1 : ℚ), (2 : ℚ), (3 : ℚ))]) :=
  C10_equal_factors_identity 2 (by norm_num) _ _

/-- Predictor stub that raises on every input (used as a concrete failing collaborator). -/
def predFailAll : List ℚ → Except ℕ (ℚ × List ℚ) := fun _ => Except.error 7

/-- Predictor stub that raises exactly when the second coordinate of its input
is nonzero; for a single atom at the origin this succeeds on the baseline and
the axis-0 perturbation and raises on the axis-1 perturbation. -/
def predFailAxis1 : List ℚ → Except ℕ (ℚ × List ℚ) := fun q =>
  if q.get? 1 = some 0 then Except.ok (0, [0, 0, 0]) else Except.error 7

/-- Claim C8: a raise in any of the four predictor invocations aborts the call:
the same error value reaches the caller, and the exposed `self.results` field
keeps its previous content; only a fully successful call assigns the bundle. -/
theorem C8_error_propagation {ε : Type} (s : SGDMLCalculator)
    (pred : List ℚ → Except ε (ℚ × List ℚ)) (positions : List Pos3)
    (prior : Option EvaluationResult) (err : ε) :
    (pred (ravel (toModel s positions)) = Except.error err →
      s.calculateE pred positions = Except.error err ∧
      (s.calculateRun pred positions prior).2 = prior) ∧
    (∀ ef, pred (ravel (toModel s positions)) = Except.ok ef →
      (pred (ravel (perturb (toModel s positions) 0)) = Except.error err →
        s.calculateE pred positions = Except.error err ∧
        (s.calculateRun pred positions prior).2 = prior) ∧
      ∀ p0, pred (ravel (perturb (toModel s positions) 0)) = Except.ok p0 →
        (pred (ravel (perturb (toModel s positions) 1)) = Except.error err →
          s.calculateE pred positions = Except.error err ∧
          (s.calculateRun pred positions prior).2 = prior) ∧
        ∀ p1, pred (ravel (perturb (toModel s positions) 1)) = Except.ok p1 →
          pred (ravel (perturb (toModel s positions) 2)) = Except.error err →
          s.calculateE pred positions = Except.error err ∧
          (s.calculateRun pred positions prior).2 = prior) ∧
    ∀ res, s.calculateE pred positions = Except.ok res →
      s.calculateRun pred positions prior = (Except.ok (), some res) := by
  have hrun : ∀ e : ε, s.calculateE pred positions = Except.error e →
      (s.calculateRun pred positions prior).2 = prior := by
    intro e he
    simp [SGDMLCalculator.calculateRun, he]
  refine ⟨?_, ?_, ?_⟩
  · intro hb
    have he : s.calculateE pred positions = Except.error err := by
      simp [SGDMLCalculator.calculateE, hb, Except.bind]
    exact ⟨he, hrun err he⟩
  · intro ef hb
    constructor
    · intro h0
      have he : s.calculateE pred positions = Except.error err := by
        simp [SGDMLCalculator.calculateE, hb, h0, Except.bind]
      exact ⟨he, hrun err he⟩
    · intro p0 h0
      constructor
      · intro h1
        have he : s.calculateE pred positions = Except.error err := by
          simp [SGDMLCalculator.calculateE, hb, h0, h1, Except.bind]
        exact ⟨he, hrun err he⟩
      · intro p1 h1 h2
        have he : s.calculateE pred positions = Except.error err := by
          simp [SGDMLCalculator.calculateE, hb, h0, h1, h2, Except.bind]
        exact ⟨he, hrun err he⟩
  · intro res hres
    simp [SGDMLCalculator.calculateRun, hres]

theorem C8_error_propagation_witness :
    ((SGDMLCalculator.init 1 1).calculateE predFailAll [((0 : ℚ), (0 : ℚ), (0 : ℚ))]
        = Except.error 7 ∧
      ((SGDMLCalculator.init 1 1).calculateRun predFailAll
          [((0 : ℚ), (0 : ℚ), (0 : ℚ))] none).2 = none) ∧
    ((SGDMLCalculator.init 1 1).calculateE predFailAxis1 [((0 : ℚ), (0 : ℚ), (0 : ℚ))]
        = Except.error 7 ∧
      ((SGDMLCalculator.init 1 1).calculateRun predFailAxis1
          [((0 : ℚ), (0 : ℚ), (0 : ℚ))] none).2 = none) := by
  constructor
  · exact (C8_error_propagation (SGDMLCalculator.init 1 1) predFailAll
      [((0 : ℚ), (0 : ℚ), (0 : ℚ))] none 7).1 rfl
  · have ht : toModel (SGDMLCalculator.init 1 1) [((0 : ℚ), (0 : ℚ), (0 : ℚ))]
        = [((0 : ℚ), (0 : ℚ), (0 : ℚ))] :=
      toModel_of_one _ (by rw [init_one_one_eq]) _
    have hbase : predFailAxis1
        (ravel (toModel (SGDMLCalculator.init 1 1) [((0 : ℚ), (0 : ℚ), (0 : ℚ))]))
        = Except.ok ((0 : ℚ), [0, 0, 0]) := by
      rw [ht]
      norm_num [predFailAxis1, ravel]
    have h0 : predFailAxis1
        (ravel (perturb (toModel (SGDMLCalculator.init 1 1) [((0 : ℚ), (0 : ℚ), (0 : ℚ))]) 0))
        = Except.ok ((0 : ℚ), [0, 0, 0]) := by
      rw [ht]
      norm_num [predFailAxis1, ravel, perturb, addAxis, hStep]
    have h1 : predFailAxis1
        (ravel (perturb (toModel (SGDMLCalculator.init 1 1) [((0 : ℚ), (0 : ℚ), (0 : ℚ))]) 1))
        = Except.error 7 := by
      rw [ht]
      norm_num [predFailAxis1, ravel, perturb, addAxis, hStep]
    exact ((((C8_error_propagation (SGDMLCalculator.init 1 1) predFailAxis1
        [((0 : ℚ), (0 : ℚ), (0 : ℚ))] none 7).2.1) _ hbase).2 _ h0).1 h1
